import Mathlib

set_option linter.unusedVariables false

/-!
Verification of the FLUX sample-and-hold slicer engine
(`src/original-hothouse-projects/flux-hothouse/flux_main.cpp`) and of the
released Ambien Flux variant of the same engine (the source embedded in
`src/original-hothouse-projects/ambien-flux-hothouse/CONTROLS.md`), which
additionally implements the freeze latch.

Modelling conventions, used throughout:
* `float` samples, knob values and float arithmetic are modelled as exact
  rationals (`ℚ`); float literals such as `0.01f` become the exact decimal
  they denote.
* C `int` values are modelled as `ℤ` where a negative value is conceivable
  and as `ℕ` for counters that are only ever incremented from zero or reset
  to zero (`capturePosition`, `playbackPosition`, `repeatCount`,
  `zeroSearchCount`, cursor indices).
* a C float-to-int cast truncates toward zero: `cTrunc`.
* C `int` division truncates toward zero: `Int.tdiv`.
* `rand()` is modelled as an arbitrary stream `rng : ℕ → ℕ` of nonnegative
  values read at a cursor `k`; every call to `rand()` consumes one stream
  element and advances the cursor, so theorems quantified over `rng` hold
  for every behaviour of the pseudo-random source.
* the two-dimensional array `sliceBuffers[MAX_SLICES][MAX_SLICE_LENGTH]` is
  modelled as a total function `ℕ → ℕ → ℚ` together with theorems showing
  every access index computed by the engine is inside the array bounds.
* division by zero in `ℚ` yields `0`; the engine only divides by
  `fadeLength`, which the code has set to a positive value whenever the
  quotient is used.
-/

namespace Flux

/-- C-style truncation toward zero of a rational value, as performed by a
C cast from `float` to `int`. -/
def cTrunc (q : ℚ) : ℤ := if q < 0 then -⌊-q⌋ else ⌊q⌋

/-- MAX_SLICES, flux_main.cpp line 56. -/
def MAX_SLICES : ℕ := 16

/-- MAX_SLICE_LENGTH (500 ms at 48 kHz), flux_main.cpp line 57. -/
def MAX_SLICE_LENGTH : ℕ := 24000

/-- MAX_ZERO_SEARCH, flux_main.cpp line 88. -/
def MAX_ZERO_SEARCH : ℕ := 1000

/-- Pointwise update of the modelled two-dimensional slice buffer array,
the effect of `sliceBuffers[i][j] = v`. -/
def writeBuf (b : ℕ → ℕ → ℚ) (i j : ℕ) (v : ℚ) : ℕ → ℕ → ℚ :=
  fun i' j' => if i' = i ∧ j' = j then v else b i' j'

/-- Global engine state of flux_main.cpp: slice store, capture cursor,
playback cursor, stutter state, the crossfade statics of `PlaybackSlice`
(lines 482-483), the smoothed slice-length parameter, the bit-crush
sample-and-hold statics (lines 151-152), the lo-fi one-pole filter and
the dry/wet crossfader position. -/
structure State where
  sliceBuffers : ℕ → ℕ → ℚ
  sliceLengths : ℕ → ℤ
  currentCaptureSlice : ℕ
  capturePosition : ℕ
  waitingForZeroCrossing : Bool
  previousCaptureSample : ℚ
  hasLeftZero : Bool
  zeroSearchCount : ℕ
  currentPlaybackSlice : ℕ
  playbackPosition : ℕ
  hasContent : Bool
  playbackReverse : Bool
  repeatCount : ℕ
  targetRepeats : ℕ
  lastPlayedSlice : ℤ
  fadeLength : ℤ
  slice_length_samples_smooth : ℚ
  bitcrush_hold_sample : ℚ
  bitcrush_sample_counter : ℕ
  lofi_filter_freq : ℚ
  lofi_filter_out : ℚ
  mixPos : ℚ

/-- Control-rate parameters read by the audio path: the outputs of
`ProcessParameters` and `UpdateControls` (flux_main.cpp lines 188-284),
which are fixed for the duration of one block. -/
structure Params where
  active_slice_count : ℕ
  knob_stutter : ℚ
  toggle_mode : ℕ
  feedback_amount : ℚ
  knob_mix : ℚ
  master_level : ℚ
  lofi_bitcrush : ℚ
  slice_length_samples : ℕ
  bypass : Bool

/-- GetNextSlice, flux_main.cpp lines 314-342. Returns the chosen slice,
the new value of the by-reference `reverseFlag`, and the advanced rand
cursor. In C, `(current - 1 + sliceCount) % sliceCount` acts on
nonnegative ints; `(current + sliceCount - 1) % sliceCount` is the same
value in `ℕ`. -/
def GetNextSlice (current sliceCount : ℕ) (k6_value : ℚ) (mode : ℕ)
    (rng : ℕ → ℕ) (k : ℕ) : ℕ × Bool × ℕ :=
  let random_val : ℚ := ((rng k % 10000 : ℕ) : ℚ) / 10000
  let k1 := k + 1
  let doShuffle : Bool := decide (random_val < k6_value)
  let sel : ℕ × ℕ :=
    if doShuffle then (rng k1 % sliceCount, k1 + 1)
    else if mode = 0 then ((current + 1) % sliceCount, k1)
    else if mode = 1 then ((current + sliceCount - 1) % sliceCount, k1)
    else ((current + 1) % sliceCount, k1)
  let rev : Bool × ℕ :=
    if mode = 2 then (rng sel.2 % 2 == 0, sel.2 + 1)
    else if mode = 1 then (true, sel.2)
    else (false, sel.2)
  (sel.1, rev.1, rev.2)

/-- CalculateRepeatCount, flux_main.cpp lines 290-312. Returns the repeat
count and the advanced rand cursor; with `k6_value < 0.01` the function
returns before calling `rand()`, so no stream element is consumed. -/
def CalculateRepeatCount (k6_value : ℚ) (rng : ℕ → ℕ) (k : ℕ) : ℕ × ℕ :=
  if k6_value < 1/100 then (1, k)
  else
    let random_val : ℚ := ((rng k % 10000 : ℕ) : ℚ) / 10000
    let k1 := k + 1
    if k6_value < 25/100 then
      (if random_val < 95/100 then 1 else 2, k1)
    else if k6_value < 50/100 then
      (if random_val < 60/100 then 1 else if random_val < 90/100 then 2 else 4, k1)
    else if k6_value < 75/100 then
      (if random_val < 30/100 then 1 else if random_val < 70/100 then 2
       else if random_val < 90/100 then 4 else 8, k1)
    else
      (if random_val < 10/100 then 1 else if random_val < 40/100 then 2
       else if random_val < 70/100 then 4 else 8, k1)

/-- CaptureSlice, flux_main.cpp lines 370-440. One per-sample step of the
capture engine: writes `input` at the capture cursor, advances the
zero-crossing state machine and, on finalize, records the realized length,
initializes playback on first content (lines 409-423, consuming the rand
draws of `CalculateRepeatCount` and of the mode-2 direction coin), and
advances the capture index per the active mode (lines 425-432). -/
def CaptureSlice (p : Params) (input : ℚ) (s : State) (rng : ℕ → ℕ) (k : ℕ) :
    State × ℕ :=
  let hasLeftZero0 : Bool := s.hasLeftZero || decide (|input| > 1/100)
  let zeroCrossing : Bool := hasLeftZero0 &&
    (decide (s.previousCaptureSample > 0 ∧ input ≤ 0) ||
     decide (s.previousCaptureSample < 0 ∧ input ≥ 0))
  let buffers1 := writeBuf s.sliceBuffers s.currentCaptureSlice s.capturePosition input
  let capturePosition1 := s.capturePosition + 1
  let wz : Bool × ℕ × Bool × Bool :=
    if s.waitingForZeroCrossing then
      let zsc := s.zeroSearchCount + 1
      (true, zsc, hasLeftZero0,
        zeroCrossing || decide (zsc ≥ MAX_ZERO_SEARCH) ||
          decide (capturePosition1 ≥ MAX_SLICE_LENGTH - 1))
    else if decide ((capturePosition1 : ℤ) ≥ cTrunc s.slice_length_samples_smooth) then
      (true, 0, false, false)
    else
      (false, s.zeroSearchCount, hasLeftZero0, false)
  if wz.2.2.2 then
    let lengths1 := Function.update s.sliceLengths s.currentCaptureSlice (capturePosition1 : ℤ)
    let pb : ℕ × ℕ × ℕ × ℕ × Bool × ℕ :=
      if s.hasContent then
        (s.currentPlaybackSlice, s.playbackPosition, s.repeatCount, s.targetRepeats,
         s.playbackReverse, k)
      else
        let cr := CalculateRepeatCount p.knob_stutter rng k
        let rv : Bool × ℕ :=
          if p.toggle_mode = 2 then (rng cr.2 % 2 == 0, cr.2 + 1)
          else if p.toggle_mode = 1 then (true, cr.2)
          else (false, cr.2)
        (s.currentCaptureSlice, 0, 0, cr.1, rv.1, rv.2)
    let adv : ℕ × ℕ :=
      if p.toggle_mode = 2 then (rng pb.2.2.2.2.2 % p.active_slice_count, pb.2.2.2.2.2 + 1)
      else if s.currentCaptureSlice + 1 ≥ p.active_slice_count then (0, pb.2.2.2.2.2)
      else (s.currentCaptureSlice + 1, pb.2.2.2.2.2)
    ({ s with
        sliceBuffers := buffers1
        sliceLengths := lengths1
        currentCaptureSlice := adv.1
        capturePosition := 0
        waitingForZeroCrossing := false
        previousCaptureSample := 0
        hasLeftZero := false
        zeroSearchCount := 0
        currentPlaybackSlice := pb.1
        playbackPosition := pb.2.1
        hasContent := true
        playbackReverse := pb.2.2.2.2.1
        repeatCount := pb.2.2.1
        targetRepeats := pb.2.2.2.1 }, adv.2)
  else
    ({ s with
        sliceBuffers := buffers1
        capturePosition := capturePosition1
        previousCaptureSample := input
        waitingForZeroCrossing := wz.1
        zeroSearchCount := wz.2.1
        hasLeftZero := wz.2.2.1 }, k)

/-- Read offset selection of PlaybackSlice, flux_main.cpp lines 463-477
(identical in the Ambien variant): the reverse-direction offset
`len - 1 - pos` behind its in-range guard, then the final defensive
default-to-zero clamp applied to any out-of-range offset. -/
def readPositionOf (reverse : Bool) (pos : ℕ) (len : ℤ) : ℤ :=
  let readPosition0 : ℤ :=
    if reverse then (if (pos : ℤ) < len then len - 1 - (pos : ℤ) else 0)
    else (pos : ℤ)
  if readPosition0 < 0 ∨ readPosition0 ≥ len then 0 else readPosition0

/-- Crossfade envelope of PlaybackSlice, flux_main.cpp lines 498-512
(identical in the Ambien variant): the fade-in ramp, lowered by the
fade-out ramp when inside the fade-out region. -/
def fadeEnvelopeOf (pos : ℕ) (len fade1 : ℤ) : ℚ :=
  let fadeEnvelope0 : ℚ := if (pos : ℤ) < fade1 then (pos : ℚ) / (fade1 : ℚ) else 1
  let fadeOutStart : ℤ := len - fade1
  if fadeOutStart > 0 ∧ (pos : ℤ) ≥ fadeOutStart then
    let fo : ℚ := 1 - ((((pos : ℤ) - fadeOutStart : ℤ) : ℚ) / (fade1 : ℚ))
    if fo < fadeEnvelope0 then fo else fadeEnvelope0
  else fadeEnvelope0

/-- Crossfade length computed on a slice change, flux_main.cpp lines
488-495: 15 percent of the realized length, floored at 240 samples (5 ms),
re-cut to a third of the length when twice the fade would exceed it. -/
def fadeLengthOf (currentSliceLen : ℤ) : ℤ :=
  let f0 := Int.tdiv (currentSliceLen * 15) 100
  let f1 := if f0 < 240 then 240 else f0
  if f1 * 2 > currentSliceLen then
    let g := Int.tdiv currentSliceLen 3
    if g < 1 then 1 else g
  else f1

/-- Result of one `PlaybackSlice` call: the produced sample, the new engine
state, the advanced rand cursor, and — for the bounds and conflict theorems
below — the buffer cell `(slice index, offset)` that was read, `none` when
the call returned silence without touching the slice store. -/
structure PlayOut where
  output : ℚ
  s : State
  k : ℕ
  read : Option (ℕ × ℕ)

/-- Body of PlaybackSlice after the conflict check, flux_main.cpp lines
459-539: empty-slice guard, reverse/forward read offset with the
default-to-zero clamp (lines 463-477), the buffer read, the crossfade
envelope, and the end-of-slice repeat/advance logic. -/
def PlaybackRead (p : Params) (s : State) (rng : ℕ → ℕ) (k : ℕ) : PlayOut :=
  let len := s.sliceLengths s.currentPlaybackSlice
  if len = 0 then ⟨0, s, k, none⟩
  else
    let readPosition : ℤ := readPositionOf s.playbackReverse s.playbackPosition len
    let output0 := s.sliceBuffers s.currentPlaybackSlice readPosition.toNat
    let sliceChanged : Bool :=
      decide ((s.currentPlaybackSlice : ℤ) ≠ s.lastPlayedSlice) ||
        decide (s.playbackPosition = 0)
    let lastPlayed1 : ℤ :=
      if sliceChanged then (s.currentPlaybackSlice : ℤ) else s.lastPlayedSlice
    let fade1 : ℤ := if sliceChanged then fadeLengthOf len else s.fadeLength
    let output := output0 * fadeEnvelopeOf s.playbackPosition len fade1
    let pos1 := s.playbackPosition + 1
    let sBase := { s with lastPlayedSlice := lastPlayed1, fadeLength := fade1 }
    if (pos1 : ℤ) ≥ len then
      let rc := s.repeatCount + 1
      if rc ≥ s.targetRepeats then
        let g1 := GetNextSlice s.currentPlaybackSlice p.active_slice_count p.knob_stutter
          p.toggle_mode rng k
        let g2 : ℕ × Bool × ℕ :=
          if g1.1 = s.currentCaptureSlice then
            GetNextSlice g1.1 p.active_slice_count p.knob_stutter p.toggle_mode rng g1.2.2
          else g1
        let cr := CalculateRepeatCount p.knob_stutter rng g2.2.2
        ⟨output,
         { sBase with
             currentPlaybackSlice :=
               if s.sliceLengths g2.1 > 0 then g2.1 else s.currentPlaybackSlice
             playbackPosition := 0
             repeatCount := 0
             targetRepeats := cr.1
             playbackReverse := g2.2.1 },
         cr.2, some (s.currentPlaybackSlice, readPosition.toNat)⟩
      else
        ⟨output, { sBase with playbackPosition := 0, repeatCount := rc }, k,
         some (s.currentPlaybackSlice, readPosition.toNat)⟩
    else
      ⟨output, { sBase with playbackPosition := pos1 }, k,
       some (s.currentPlaybackSlice, readPosition.toNat)⟩

/-- PlaybackSlice, flux_main.cpp lines 446-540. The no-content guard and
the read/write conflict rule (lines 452-457): when the playback index
equals the capture index the sequencer advances through `GetNextSlice`
before any read, resetting position, repeat count and target repeats. -/
def PlaybackSlice (p : Params) (s : State) (rng : ℕ → ℕ) (k : ℕ) : PlayOut :=
  if s.hasContent then
    if s.currentPlaybackSlice = s.currentCaptureSlice then
      let g := GetNextSlice s.currentPlaybackSlice p.active_slice_count p.knob_stutter
        p.toggle_mode rng k
      let cr := CalculateRepeatCount p.knob_stutter rng g.2.2
      PlaybackRead p
        { s with
            currentPlaybackSlice := g.1
            playbackReverse := g.2.1
            playbackPosition := 0
            repeatCount := 0
            targetRepeats := cr.1 }
        rng cr.2
    else PlaybackRead p s rng k
  else ⟨0, s, k, none⟩

/-- Slice count mapping of ProcessParameters, flux_main.cpp lines 268-270:
truncating cast of `knob * 15.999f` plus one, then the two clamps to
`[1, MAX_SLICES]`. -/
def active_slice_count_of (knob_slice_count : ℚ) : ℤ :=
  let v := cTrunc (knob_slice_count * (15999/1000)) + 1
  let v1 := if v < 1 then 1 else v
  if v1 > (MAX_SLICES : ℤ) then (MAX_SLICES : ℤ) else v1

/-- Slice length mapping of ProcessParameters, flux_main.cpp lines 273-275:
a logarithmic curve from MIN_SLICE_LENGTH_MS (100) to MAX_SLICE_LENGTH_MS
(500). The transcendental `logf` is modelled over the reals. -/
noncomputable def slice_length_ms_of (knob_slice_length : ℝ) : ℝ :=
  100 + (Real.log (1 + 9 * knob_slice_length) / Real.log 10) * 400

/-- Model of the one-pole low-pass `Process` of the external DaisySP
library (`OnePole lofi_filter`): a single-pole smoother whose coefficient
tracks the configured cutoff. The library is a dependency outside this
repository; no theorem below depends on the shape of this response, only
on whether the filter is invoked at all. -/
def onePoleProcess (freq prevOut x : ℚ) : ℚ := prevOut + (freq / 48000) * (x - prevOut)

/-- CustomBitCrush, flux_main.cpp lines 154-182: early exact bypass at
`amount <= 0`, otherwise sample-rate reduction by a hold counter plus the
tracking low-pass, with the cutoff at 80 percent of the effective Nyquist
frequency clamped to `[500, 18000]`. -/
def CustomBitCrush (input amount : ℚ) (s : State) : ℚ × State :=
  if amount ≤ 0 then (input, s)
  else
    let downsample_rate : ℤ := 1 + cTrunc (amount * amount * 31)
    let effective_nyquist : ℚ := (48000 / (downsample_rate : ℚ)) / 2
    let cutoff0 : ℚ := effective_nyquist * (8/10)
    let cutoff1 : ℚ := if cutoff0 > 18000 then 18000 else cutoff0
    let cutoff : ℚ := if cutoff1 < 500 then 500 else cutoff1
    let hc : ℕ × ℚ :=
      if (s.bitcrush_sample_counter : ℤ) ≥ downsample_rate then (0, input)
      else (s.bitcrush_sample_counter, s.bitcrush_hold_sample)
    let out := onePoleProcess cutoff s.lofi_filter_out hc.2
    (out, { s with
        bitcrush_hold_sample := hc.2
        bitcrush_sample_counter := hc.1 + 1
        lofi_filter_freq := cutoff
        lofi_filter_out := out })

/-- The fonepole one-pole smoother of the external DaisySP utility header,
`out += coeff * (in - out)`, applied to `slice_length_samples_smooth` at
the top of every sample iteration (flux_main.cpp line 557). -/
def fonepole (out_ in_ coeff : ℚ) : ℚ := out_ + coeff * (in_ - out_)

/-- One iteration of the per-sample loop of AudioCallback, flux_main.cpp
lines 555-590: parameter smoothing, then either the bypass branch (output
equals the raw input on both channels) or the wet path — bit crush,
playback read, feedback into capture, dry/wet mix (the external DaisySP
CrossFade with its default linear curve: `in1*(1-pos) + in2*pos`), master
level. Returns both output channel samples, the new state and the
advanced rand cursor. -/
def AudioCallbackSample (p : Params) (input : ℚ) (s : State) (rng : ℕ → ℕ) (k : ℕ) :
    (ℚ × ℚ) × State × ℕ :=
  let sm := fonepole s.slice_length_samples_smooth (p.slice_length_samples : ℚ) (2/10000)
  let s0 := { s with slice_length_samples_smooth := sm }
  if p.bypass = false then
    let bc := CustomBitCrush input p.lofi_bitcrush s0
    let pr := PlaybackSlice p bc.2 rng k
    let capture_input := bc.1 + pr.output * p.feedback_amount
    let cap := CaptureSlice p capture_input pr.s rng pr.k
    let s3 := { cap.1 with mixPos := p.knob_mix }
    let output := (bc.1 * (1 - p.knob_mix) + pr.output * p.knob_mix) * p.master_level
    ((output, output), s3, cap.2)
  else
    ((input, input), s0, k)

end Flux

namespace Ambien

open Flux (State Params writeBuf cTrunc fadeLengthOf readPositionOf fadeEnvelopeOf
  PlayOut MAX_SLICES MAX_SLICE_LENGTH MAX_ZERO_SEARCH fonepole onePoleProcess)

/-- GetNextSlice of the released Ambien Flux variant (CONTROLS.md embedded
source): purely mode-driven — random slice and direction coin in mode 2,
sequential decrement with reverse in mode 1, sequential increment forward
otherwise; the stutter knob argument is unused by this variant. -/
def GetNextSlice (currentSlice sliceCount : ℕ) (stutterKnob : ℚ) (toggleMode : ℕ)
    (rng : ℕ → ℕ) (k : ℕ) : ℕ × Bool × ℕ :=
  if toggleMode = 2 then (rng k % sliceCount, rng (k + 1) % 2 == 0, k + 2)
  else if toggleMode = 1 then
    (if currentSlice = 0 then sliceCount - 1 else currentSlice - 1, true, k)
  else
    (if currentSlice + 1 ≥ sliceCount then 0 else currentSlice + 1, false, k)

/-- CalculateRepeatCount of the Ambien Flux variant: a shuffle-probability
gate (`rand() % 100` against the truncated stutter percentage) followed by
a weighted subdivision draw over 2, 4, 1, 8. -/
def CalculateRepeatCount (stutter_knob : ℚ) (rng : ℕ → ℕ) (k : ℕ) : ℕ × ℕ :=
  if stutter_knob < 1/100 then (1, k)
  else
    let draw := rng k % 100
    let k1 := k + 1
    if (draw : ℤ) < cTrunc (stutter_knob * 100) then
      let subdivision_choice := rng k1 % 100
      (if subdivision_choice < 40 then 2 else if subdivision_choice < 70 then 4
       else if subdivision_choice < 90 then 1 else 8, k1 + 1)
    else (1, k1)

/-- CaptureSlice of the Ambien Flux variant, with the freeze latch: when
`is_frozen` holds the function returns before doing anything — no buffer
write, no cursor movement, no state change (CONTROLS.md: `if (is_frozen)
return;`). The unfrozen body is the same per-sample capture step as the
flux_main.cpp version, calling this variant's repeat-count draw. -/
def CaptureSlice (p : Params) (is_frozen : Bool) (input : ℚ) (s : State)
    (rng : ℕ → ℕ) (k : ℕ) : State × ℕ :=
  if is_frozen then (s, k)
  else
    let hasLeftZero0 : Bool := s.hasLeftZero || decide (|input| > 1/100)
    let zeroCrossing : Bool := hasLeftZero0 &&
      (decide (s.previousCaptureSample > 0 ∧ input ≤ 0) ||
       decide (s.previousCaptureSample < 0 ∧ input ≥ 0))
    let buffers1 := writeBuf s.sliceBuffers s.currentCaptureSlice s.capturePosition input
    let capturePosition1 := s.capturePosition + 1
    let wz : Bool × ℕ × Bool × Bool :=
      if s.waitingForZeroCrossing then
        let zsc := s.zeroSearchCount + 1
        (true, zsc, hasLeftZero0,
          zeroCrossing || decide (zsc ≥ MAX_ZERO_SEARCH) ||
            decide (capturePosition1 ≥ MAX_SLICE_LENGTH - 1))
      else if decide ((capturePosition1 : ℤ) ≥ cTrunc s.slice_length_samples_smooth) then
        (true, 0, false, false)
      else
        (false, s.zeroSearchCount, hasLeftZero0, false)
    if wz.2.2.2 then
      let lengths1 := Function.update s.sliceLengths s.currentCaptureSlice (capturePosition1 : ℤ)
      let pb : ℕ × ℕ × ℕ × ℕ × Bool × ℕ :=
        if s.hasContent then
          (s.currentPlaybackSlice, s.playbackPosition, s.repeatCount, s.targetRepeats,
           s.playbackReverse, k)
        else
          let cr := CalculateRepeatCount p.knob_stutter rng k
          let rv : Bool × ℕ :=
            if p.toggle_mode = 2 then (rng cr.2 % 2 == 0, cr.2 + 1)
            else if p.toggle_mode = 1 then (true, cr.2)
            else (false, cr.2)
          (s.currentCaptureSlice, 0, 0, cr.1, rv.1, rv.2)
      let adv : ℕ × ℕ :=
        if p.toggle_mode = 2 then (rng pb.2.2.2.2.2 % p.active_slice_count, pb.2.2.2.2.2 + 1)
        else if s.currentCaptureSlice + 1 ≥ p.active_slice_count then (0, pb.2.2.2.2.2)
        else (s.currentCaptureSlice + 1, pb.2.2.2.2.2)
      ({ s with
          sliceBuffers := buffers1
          sliceLengths := lengths1
          currentCaptureSlice := adv.1
          capturePosition := 0
          waitingForZeroCrossing := false
          previousCaptureSample := 0
          hasLeftZero := false
          zeroSearchCount := 0
          currentPlaybackSlice := pb.1
          playbackPosition := pb.2.1
          hasContent := true
          playbackReverse := pb.2.2.2.2.1
          repeatCount := pb.2.2.1
          targetRepeats := pb.2.2.2.1 }, adv.2)
    else
      ({ s with
          sliceBuffers := buffers1
          capturePosition := capturePosition1
          previousCaptureSample := input
          waitingForZeroCrossing := wz.1
          zeroSearchCount := wz.2.1
          hasLeftZero := wz.2.2.1 }, k)

/-- Body of the Ambien Flux PlaybackSlice after the conflict check; the
same read, clamp, crossfade and repeat/advance logic as the flux_main.cpp
version, calling this variant's slice selection and repeat-count draws. -/
def PlaybackRead (p : Params) (s : State) (rng : ℕ → ℕ) (k : ℕ) : PlayOut :=
  let len := s.sliceLengths s.currentPlaybackSlice
  if len = 0 then ⟨0, s, k, none⟩
  else
    let readPosition : ℤ := readPositionOf s.playbackReverse s.playbackPosition len
    let output0 := s.sliceBuffers s.currentPlaybackSlice readPosition.toNat
    let sliceChanged : Bool :=
      decide ((s.currentPlaybackSlice : ℤ) ≠ s.lastPlayedSlice) ||
        decide (s.playbackPosition = 0)
    let lastPlayed1 : ℤ :=
      if sliceChanged then (s.currentPlaybackSlice : ℤ) else s.lastPlayedSlice
    let fade1 : ℤ := if sliceChanged then fadeLengthOf len else s.fadeLength
    let output := output0 * fadeEnvelopeOf s.playbackPosition len fade1
    let pos1 := s.playbackPosition + 1
    let sBase := { s with lastPlayedSlice := lastPlayed1, fadeLength := fade1 }
    if (pos1 : ℤ) ≥ len then
      let rc := s.repeatCount + 1
      if rc ≥ s.targetRepeats then
        let g1 := GetNextSlice s.currentPlaybackSlice p.active_slice_count p.knob_stutter
          p.toggle_mode rng k
        let g2 : ℕ × Bool × ℕ :=
          if g1.1 = s.currentCaptureSlice then
            GetNextSlice g1.1 p.active_slice_count p.knob_stutter p.toggle_mode rng g1.2.2
          else g1
        let cr := CalculateRepeatCount p.knob_stutter rng g2.2.2
        ⟨output,
         { sBase with
             currentPlaybackSlice :=
               if s.sliceLengths g2.1 > 0 then g2.1 else s.currentPlaybackSlice
             playbackPosition := 0
             repeatCount := 0
             targetRepeats := cr.1
             playbackReverse := g2.2.1 },
         cr.2, some (s.currentPlaybackSlice, readPosition.toNat)⟩
      else
        ⟨output, { sBase with playbackPosition := 0, repeatCount := rc }, k,
         some (s.currentPlaybackSlice, readPosition.toNat)⟩
    else
      ⟨output, { sBase with playbackPosition := pos1 }, k,
       some (s.currentPlaybackSlice, readPosition.toNat)⟩

/-- PlaybackSlice of the Ambien Flux variant: the no-content guard and the
read/write conflict rule, then the read body. -/
def PlaybackSlice (p : Params) (s : State) (rng : ℕ → ℕ) (k : ℕ) : PlayOut :=
  if s.hasContent then
    if s.currentPlaybackSlice = s.currentCaptureSlice then
      let g := GetNextSlice s.currentPlaybackSlice p.active_slice_count p.knob_stutter
        p.toggle_mode rng k
      let cr := CalculateRepeatCount p.knob_stutter rng g.2.2
      PlaybackRead p
        { s with
            currentPlaybackSlice := g.1
            playbackReverse := g.2.1
            playbackPosition := 0
            repeatCount := 0
            targetRepeats := cr.1 }
        rng cr.2
    else PlaybackRead p s rng k
  else ⟨0, s, k, none⟩

/-- CustomBitCrush of the Ambien Flux variant: identical to the
flux_main.cpp one except for the aggressive 50 percent Nyquist cutoff
scale on the tracking filter. -/
def CustomBitCrush (input amount : ℚ) (s : State) : ℚ × State :=
  if amount ≤ 0 then (input, s)
  else
    let downsample_rate : ℤ := 1 + cTrunc (amount * amount * 31)
    let effective_nyquist : ℚ := (48000 / (downsample_rate : ℚ)) / 2
    let cutoff0 : ℚ := effective_nyquist * (5/10)
    let cutoff1 : ℚ := if cutoff0 > 18000 then 18000 else cutoff0
    let cutoff : ℚ := if cutoff1 < 500 then 500 else cutoff1
    let hc : ℕ × ℚ :=
      if (s.bitcrush_sample_counter : ℤ) ≥ downsample_rate then (0, input)
      else (s.bitcrush_sample_counter, s.bitcrush_hold_sample)
    let out := onePoleProcess cutoff s.lofi_filter_out hc.2
    (out, { s with
        bitcrush_hold_sample := hc.2
        bitcrush_sample_counter := hc.1 + 1
        lofi_filter_freq := cutoff
        lofi_filter_out := out })

/-- Slice-engine portion of one per-sample iteration of the Ambien Flux
AudioCallback while the pedal is engaged: parameter smoothing, bit crush
of the input, playback read, feedback into the capture input, capture
step gated by the freeze latch. The wobble, dust, mix and master-level
stages that follow in the callback operate only on the output sample and
their own delay/filter state and never touch the slice store, so they are
outside this step. Returns the wet sample, the new state and rand cursor. -/
def engineTick (p : Params) (is_frozen : Bool) (input : ℚ) (s : State)
    (rng : ℕ → ℕ) (k : ℕ) : ℚ × State × ℕ :=
  let sm := fonepole s.slice_length_samples_smooth (p.slice_length_samples : ℚ) (2/10000)
  let s0 := { s with slice_length_samples_smooth := sm }
  let bc := CustomBitCrush input p.lofi_bitcrush s0
  let pr := PlaybackSlice p bc.2 rng k
  let capture_input := bc.1 + pr.output * p.feedback_amount
  let cap := CaptureSlice p is_frozen capture_input pr.s rng pr.k
  (pr.output, cap.1, cap.2)

/-- Iterated slice-engine steps over a list of input samples. -/
def engineRun (p : Params) (is_frozen : Bool) (inputs : List ℚ) (s : State)
    (rng : ℕ → ℕ) (k : ℕ) : State × ℕ :=
  match inputs with
  | [] => (s, k)
  | x :: rest =>
    let t := engineTick p is_frozen x s rng k
    engineRun p is_frozen rest t.2.1 rng t.2.2

end Ambien


namespace Flux

/-- Slice count mapping as the specification phrases it — rounding instead
of the code's truncating cast — for comparison with
`active_slice_count_of`. -/
def spec_slice_count_round (c : ℚ) : ℤ :=
  min (MAX_SLICES : ℤ) (max 1 (round (c * (15999/1000)) + 1))

/-- Iterated per-sample steps of the flux_main.cpp audio callback over a
list of input samples. -/
def engineRun (p : Params) (inputs : List ℚ) (s : State) (rng : ℕ → ℕ) (k : ℕ) :
    State × ℕ :=
  match inputs with
  | [] => (s, k)
  | x :: rest =>
    let t := AudioCallbackSample p x s rng k
    engineRun p rest t.2.1 rng t.2.2

/-- Engine state after `InitializeSliceBuffers` and the `main()` defaults
(flux_main.cpp lines 348-368 and 605-640): cleared buffers and lengths,
cursors at zero, no content, `lastPlayedSlice = -1`, `targetRepeats = 1`.
The smoothed slice length is initialized from the mapped initial knob
position (a value strictly inside the 100-500 ms range); it is passed in
here as a parameter because its exact value is transcendental. The
crossfader position after `mix.Init()` is its library default. -/
def initState (smooth0 : ℚ) : State where
  sliceBuffers := fun _ _ => 0
  sliceLengths := fun _ => 0
  currentCaptureSlice := 0
  capturePosition := 0
  waitingForZeroCrossing := false
  previousCaptureSample := 0
  hasLeftZero := false
  zeroSearchCount := 0
  currentPlaybackSlice := 0
  playbackPosition := 0
  hasContent := false
  playbackReverse := false
  repeatCount := 0
  targetRepeats := 1
  lastPlayedSlice := -1
  fadeLength := 0
  slice_length_samples_smooth := smooth0
  bitcrush_hold_sample := 0
  bitcrush_sample_counter := 0
  lofi_filter_freq := 8000
  lofi_filter_out := 0
  mixPos := 1/2

/-- Bounds that `UpdateControls` and `ProcessParameters` guarantee for the
parameters read by the audio path: the slice count is clamped to
`[1, MAX_SLICES]` (lines 269-270) and the target slice length in samples
to at most `MAX_SLICE_LENGTH` (line 280). -/
def ParamsOk (p : Params) : Prop :=
  1 ≤ p.active_slice_count ∧ p.active_slice_count ≤ MAX_SLICES ∧
  p.slice_length_samples ≤ MAX_SLICE_LENGTH

/-- Reachability invariant of the slice engine. The last conjunct reflects
that the smoothed slice length is initialized strictly below
`MAX_SLICE_LENGTH` (the initial knob maps to about 365 ms) and is then
only moved by the one-pole tracking step, a strict convex combination of
its previous value and a clamped target of at most `MAX_SLICE_LENGTH`, so
it remains strictly below; the same holds in the device's float
arithmetic, where the update additionally stalls once its increment drops
under half an ulp. Its truncation is therefore at most
`MAX_SLICE_LENGTH - 1`, which is exactly what keeps the capture write
offset inside the buffer. -/
def Inv (s : State) : Prop :=
  s.currentCaptureSlice < MAX_SLICES ∧
  s.currentPlaybackSlice < MAX_SLICES ∧
  s.capturePosition < MAX_SLICE_LENGTH ∧
  (s.waitingForZeroCrossing = false → s.capturePosition + 1 < MAX_SLICE_LENGTH) ∧
  (∀ i, 0 ≤ s.sliceLengths i ∧ s.sliceLengths i ≤ (MAX_SLICE_LENGTH : ℤ)) ∧
  s.slice_length_samples_smooth < (MAX_SLICE_LENGTH : ℚ)

/-- Concrete engaged-pedal parameters (four slices, forward mode, stutter
and lo-fi off, target slice length pinned at the maximum) used by the
explicit counterexample and witness computations below. -/
def exParams : Params where
  active_slice_count := 4
  knob_stutter := 0
  toggle_mode := 0
  feedback_amount := 0
  knob_mix := 1/2
  master_level := 1
  lofi_bitcrush := 0
  slice_length_samples := 24000
  bypass := false

/-- The same parameters with the bypass latch engaged. -/
def exParamsBypass : Params := { exParams with bypass := true }

/-- The same parameters with a single active slice. -/
def exParamsOne : Params := { exParams with active_slice_count := 1 }

/-- A fixed behaviour of the pseudo-random source for the concrete
computations: every draw returns zero. -/
def exRng : ℕ → ℕ := fun _ => 0

/-- A concrete mid-operation engine state: slice 0 holds a finalized
10-sample slice, the capture and playback cursors both sit on slice 0. -/
def conflictState : State :=
  { initState 20000 with
      hasContent := true
      sliceBuffers := fun _ _ => 1
      sliceLengths := fun i => if i = 0 then 10 else 0
      currentCaptureSlice := 0
      currentPlaybackSlice := 0
      capturePosition := 3
      lastPlayedSlice := -1 }

/-- A concrete engine state that has content but whose slices are all
still empty-marked: playback and capture both sit on slice 0 and every
recorded length is 0. -/
def silentConflictState : State := { initState 20000 with hasContent := true }

/-- A concrete mid-operation engine state: slice 0 holds a finalized
700-sample slice about to start playing while capture sits on slice 1. -/
def sevenHundredState : State :=
  { initState 20000 with
      hasContent := true
      sliceBuffers := fun _ _ => 1
      sliceLengths := fun i => if i = 0 then 700 else 0
      currentCaptureSlice := 1
      currentPlaybackSlice := 0
      playbackPosition := 0
      targetRepeats := 5 }

end Flux

/-- C8: with the stutter control equal to 0, every repeat-count draw
returns exactly 1, for every behaviour of the pseudo-random source and
every cursor; the `k6_value < 0.01f` early return (flux_main.cpp line
291) fires before `rand()` is consulted, so the stream cursor does not
even move. -/
theorem calculateRepeatCount_stutter_zero (rng : ℕ → ℕ) (k : ℕ) :
    Flux.CalculateRepeatCount 0 rng k = (1, k) := by
  norm_num [Flux.CalculateRepeatCount]

/-- C9: with the rate-reduction control equal to 0, CustomBitCrush is an
exact bypass — the input sample is returned unchanged and the whole
engine state (in particular the hold sample, the hold counter and the
lo-fi filter) is untouched. This holds for the flux_main.cpp version and
for the aggressive-cutoff variant of part_005 and Ambien Flux alike,
since both return before any state is read or written. -/
theorem customBitCrush_zero_exact_bypass (input : ℚ) (s : Flux.State) :
    Flux.CustomBitCrush input 0 s = (input, s) ∧
    Ambien.CustomBitCrush input 0 s = (input, s) :=
  ⟨by norm_num [Flux.CustomBitCrush], by norm_num [Ambien.CustomBitCrush]⟩

/-- C5 counterexample: at control value 1/2 the code derives
`(int)(0.5 * 15.999) + 1 = 7 + 1 = 8` active slices, while the claimed
`round(0.5 x 15.999) + 1` gives 9; the truncating cast is not a
rounding. -/
theorem active_slice_count_not_round :
    Flux.active_slice_count_of (1/2) = 8 ∧ Flux.spec_slice_count_round (1/2) = 9 := by
  constructor
  · norm_num [Flux.active_slice_count_of, Flux.cTrunc, Flux.MAX_SLICES]
  · norm_num [Flux.spec_slice_count_round, round_eq, Flux.MAX_SLICES]

/-- C5 amended: for every control value in [0,1] the derived active slice
count equals floor(control x 15.999) + 1 clamped to [1, 16] (truncation,
not rounding; for nonnegative arguments the truncating cast is the
floor). -/
theorem active_slice_count_floor_clamped (c : ℚ) (h0 : 0 ≤ c) (h1 : c ≤ 1) :
    Flux.active_slice_count_of c =
      min (Flux.MAX_SLICES : ℤ) (max 1 (⌊c * (15999/1000)⌋ + 1)) := by
  have hnn : (0:ℚ) ≤ c * (15999/1000) := by positivity
  have hfl0 : (0:ℤ) ≤ ⌊c * (15999/1000)⌋ := Int.floor_nonneg.mpr hnn
  have hle : c * (15999/1000) ≤ 15999/1000 := by nlinarith
  have hfl15 : ⌊c * (15999/1000)⌋ ≤ 15 := by
    have h2 := Int.floor_le_floor hle
    have h3 : (⌊(15999/1000 : ℚ)⌋ : ℤ) = 15 := by norm_num
    omega
  have hct : Flux.cTrunc (c * (15999/1000)) = ⌊c * (15999/1000)⌋ := by
    unfold Flux.cTrunc
    rw [if_neg (not_lt.mpr hnn)]
  simp only [Flux.active_slice_count_of, hct, Flux.MAX_SLICES]
  split_ifs <;> omega

/-- C5 amended, witness at control value 1/2. -/
theorem active_slice_count_floor_clamped_witness :
    Flux.active_slice_count_of (1/2) =
      min (Flux.MAX_SLICES : ℤ) (max 1 (⌊(1/2 : ℚ) * (15999/1000)⌋ + 1)) :=
  active_slice_count_floor_clamped (1/2) (by norm_num) (by norm_num)

/-- C6 counterexample: a slice of realized length 700 samples (inside
(0, MAX_SLICE_LENGTH]) gets fade length 240 — the 5 ms floor — and
3 x 240 = 720 > 700, so the computed fade exceeds one third of the
slice length; the code only re-cuts the fade when twice the fade exceeds
the length (flux_main.cpp line 492), not when a third does. -/
theorem fadeLength_exceeds_third_of_length :
    Flux.fadeLengthOf 700 = 240 ∧ (700 : ℤ) < 3 * 240 := by
  constructor
  · decide
  · decide

/-- C6 amended: for every realized length L in (0, MAX_SLICE_LENGTH], the
computed fade length never exceeds the larger of the fixed 240-sample
(5 ms) minimum and one third of L; equivalently it is at most L/3
whenever L is at least 720. Moreover the fade-in and fade-out regions
never overlap (twice the fade fits in the slice) for every L of at least
2 samples. -/
theorem fadeLength_le_floor_or_third (len : ℤ) (h1 : 1 ≤ len)
    (h2 : len ≤ (Flux.MAX_SLICE_LENGTH : ℤ)) :
    3 * Flux.fadeLengthOf len ≤ max 720 len ∧
    (2 ≤ len → 2 * Flux.fadeLengthOf len ≤ len) := by
  simp only [Flux.fadeLengthOf, Flux.MAX_SLICE_LENGTH] at *
  rw [Int.tdiv_eq_ediv (by nlinarith) (by norm_num),
    Int.tdiv_eq_ediv (by linarith) (by norm_num)]
  constructor
  · split_ifs <;> omega
  · intro hlen2
    split_ifs <;> omega

/-- C6 amended, witness at realized length 700. -/
theorem fadeLength_le_floor_or_third_witness :
    3 * Flux.fadeLengthOf 700 ≤ max 720 700 ∧
    (2 ≤ (700:ℤ) → 2 * Flux.fadeLengthOf 700 ≤ 700) :=
  fadeLength_le_floor_or_third 700 (by norm_num) (by norm_num [Flux.MAX_SLICE_LENGTH])

/-- C7: the slice-length mapping is 100 ms at control 0, 500 ms at
control 1, and monotonically non-decreasing on [0, 1] (flux_main.cpp
lines 273-275). -/
theorem slice_length_map_monotone_and_endpoints :
    Flux.slice_length_ms_of 0 = 100 ∧ Flux.slice_length_ms_of 1 = 500 ∧
    ∀ a b : ℝ, 0 ≤ a → a ≤ b → b ≤ 1 →
      Flux.slice_length_ms_of a ≤ Flux.slice_length_ms_of b := by
  have h10 : (0:ℝ) < Real.log 10 := Real.log_pos (by norm_num)
  refine ⟨?_, ?_, ?_⟩
  · simp [Flux.slice_length_ms_of]
  · unfold Flux.slice_length_ms_of
    have h9 : (1 : ℝ) + 9 * 1 = 10 := by norm_num
    rw [h9, div_self h10.ne']
    norm_num
  · intro a b ha hab hb1
    have hlog : Real.log (1 + 9*a) ≤ Real.log (1 + 9*b) :=
      Real.log_le_log (by linarith) (by linarith)
    have hdiv : Real.log (1 + 9*a) / Real.log 10 ≤ Real.log (1 + 9*b) / Real.log 10 :=
      (div_le_div_iff_of_pos_right h10).mpr hlog
    unfold Flux.slice_length_ms_of
    linarith

/-- C7, witness: the mapping at control 0 is at most the mapping at
control 1. -/
theorem slice_length_map_monotone_witness :
    Flux.slice_length_ms_of 0 ≤ Flux.slice_length_ms_of 1 :=
  slice_length_map_monotone_and_endpoints.2.2 0 1 (by norm_num) (by norm_num) (by norm_num)

/-- C10 counterexample: even while bypass is active, the per-sample loop
still runs the one-pole smoothing of the slice-length parameter
(flux_main.cpp line 557 executes before the bypass branch), so the engine
state is not left exactly as it was: from a state whose smoothed length
is 20000 with the target at 24000, one bypassed sample moves the smoothed
length to 20000.8. -/
theorem bypass_mutates_smoothed_parameter :
    (Flux.AudioCallbackSample Flux.exParamsBypass 0 (Flux.initState 20000)
        Flux.exRng 0).2.1.slice_length_samples_smooth = 100004/5 ∧
    (100004/5 : ℚ) ≠ 20000 := by
  constructor
  · norm_num [Flux.AudioCallbackSample, Flux.exParamsBypass, Flux.exParams,
      Flux.initState, Flux.fonepole]
  · norm_num

/-- C10 amended: while bypass is active each processed sample is written
unchanged to both output channels, no randomness is consumed, and no
slice buffer, slice length, capture cursor, playback cursor, stutter or
bit-crush state is modified; the single exception to the frame is the
smoothed slice-length parameter, which continues its one-pole tracking
step even under bypass. -/
theorem bypass_frame (p : Flux.Params) (input : ℚ) (s : Flux.State) (rng : ℕ → ℕ)
    (k : ℕ) (hb : p.bypass = true) :
    (Flux.AudioCallbackSample p input s rng k).1 = (input, input) ∧
    (Flux.AudioCallbackSample p input s rng k).2.2 = k ∧
    (Flux.AudioCallbackSample p input s rng k).2.1.sliceBuffers = s.sliceBuffers ∧
    (Flux.AudioCallbackSample p input s rng k).2.1.sliceLengths = s.sliceLengths ∧
    (Flux.AudioCallbackSample p input s rng k).2.1.currentCaptureSlice = s.currentCaptureSlice ∧
    (Flux.AudioCallbackSample p input s rng k).2.1.capturePosition = s.capturePosition ∧
    (Flux.AudioCallbackSample p input s rng k).2.1.waitingForZeroCrossing =
      s.waitingForZeroCrossing ∧
    (Flux.AudioCallbackSample p input s rng k).2.1.currentPlaybackSlice =
      s.currentPlaybackSlice ∧
    (Flux.AudioCallbackSample p input s rng k).2.1.playbackPosition = s.playbackPosition ∧
    (Flux.AudioCallbackSample p input s rng k).2.1.playbackReverse = s.playbackReverse ∧
    (Flux.AudioCallbackSample p input s rng k).2.1.repeatCount = s.repeatCount ∧
    (Flux.AudioCallbackSample p input s rng k).2.1.targetRepeats = s.targetRepeats ∧
    (Flux.AudioCallbackSample p input s rng k).2.1.bitcrush_hold_sample =
      s.bitcrush_hold_sample ∧
    (Flux.AudioCallbackSample p input s rng k).2.1.bitcrush_sample_counter =
      s.bitcrush_sample_counter ∧
    (Flux.AudioCallbackSample p input s rng k).2.1.lofi_filter_out = s.lofi_filter_out ∧
    (Flux.AudioCallbackSample p input s rng k).2.1.slice_length_samples_smooth =
      Flux.fonepole s.slice_length_samples_smooth (p.slice_length_samples : ℚ) (2/10000) := by
  simp [Flux.AudioCallbackSample, hb]

/-- C10 amended, witness: one concrete bypassed sample with input 3 is
emitted unchanged on both channels. -/
theorem bypass_frame_witness :
    (Flux.AudioCallbackSample Flux.exParamsBypass 3 (Flux.initState 0)
        Flux.exRng 0).1 = (3, 3) :=
  (bypass_frame Flux.exParamsBypass 3 (Flux.initState 0) Flux.exRng 0 rfl).1

/-- Helper: when the current playback slice has recorded length 0, the
playback read body returns silence without touching the slice store
(flux_main.cpp lines 459-461). -/
theorem playbackRead_empty (p : Flux.Params) (s : Flux.State) (rng : ℕ → ℕ) (k : ℕ)
    (h : s.sliceLengths s.currentPlaybackSlice = 0) :
    Flux.PlaybackRead p s rng k = ⟨0, s, k, none⟩ := by
  simp [Flux.PlaybackRead, h]

/-- Helper: every read serviced by the playback read body comes from the
current playback slice. -/
theorem playbackRead_read_slice (p : Flux.Params) (s : Flux.State) (rng : ℕ → ℕ)
    (k : ℕ) :
    ∀ i off, (Flux.PlaybackRead p s rng k).read = some (i, off) →
      i = s.currentPlaybackSlice := by
  intro i off h
  simp only [Flux.PlaybackRead] at h
  split_ifs at h <;> simp_all

/-- Helper: in the conflict case (content present, playback index equal
to the capture index) PlaybackSlice equals the read body applied to the
state advanced once through GetNextSlice with position, repeat count and
target repeats re-initialized (flux_main.cpp lines 452-457). -/
theorem playbackSlice_conflict_eq (p : Flux.Params) (s : Flux.State) (rng : ℕ → ℕ)
    (k : ℕ) (h : s.hasContent = true)
    (hc : s.currentPlaybackSlice = s.currentCaptureSlice) :
    Flux.PlaybackSlice p s rng k =
      Flux.PlaybackRead p
        { s with
            currentPlaybackSlice := (Flux.GetNextSlice s.currentPlaybackSlice
              p.active_slice_count p.knob_stutter p.toggle_mode rng k).1
            playbackReverse := (Flux.GetNextSlice s.currentPlaybackSlice
              p.active_slice_count p.knob_stutter p.toggle_mode rng k).2.1
            playbackPosition := 0
            repeatCount := 0
            targetRepeats := (Flux.CalculateRepeatCount p.knob_stutter rng
              (Flux.GetNextSlice s.currentPlaybackSlice p.active_slice_count
                p.knob_stutter p.toggle_mode rng k).2.2).1 }
        rng
        (Flux.CalculateRepeatCount p.knob_stutter rng
          (Flux.GetNextSlice s.currentPlaybackSlice p.active_slice_count
            p.knob_stutter p.toggle_mode rng k).2.2).2 := by
  simp [Flux.PlaybackSlice, h, hc]

/-- C1 counterexample: with a single active slice, content present, a
finalized 10-sample slice 0 and both cursors on slice 0, PlaybackSlice
services a read from buffer cell (0, 0) even though the playback index
equals the capture index — the one-step advance of the conflict rule
wraps straight back to the slice being captured, so the claimed
disjointness fails for active slice count 1 (and the promised silence is
not emitted either, since the slice is non-empty). -/
theorem playback_reads_capture_slice :
    (Flux.PlaybackSlice Flux.exParamsOne Flux.conflictState Flux.exRng 0).read =
      some (0, 0) ∧
    Flux.conflictState.currentPlaybackSlice = Flux.conflictState.currentCaptureSlice ∧
    Flux.conflictState.hasContent = true := by
  refine ⟨?_, by norm_num [Flux.conflictState, Flux.initState],
    by norm_num [Flux.conflictState, Flux.initState]⟩
  norm_num [Flux.PlaybackSlice, Flux.PlaybackRead, Flux.GetNextSlice,
    Flux.CalculateRepeatCount, Flux.readPositionOf, Flux.conflictState,
    Flux.exParamsOne, Flux.exParams, Flux.exRng, Flux.initState]

/-- C1 amended: without content PlaybackSlice emits silence and services
no read. When content is present and the playback index differs from the
capture index, every serviced read comes from the playback slice and so
differs from the capture slice. When the indices are equal before the
read, the sequencer advances exactly once through GetNextSlice before
reading; if the slice selected by that advance is still empty, silence
is emitted and no read is serviced, and any serviced read comes from the
advanced-to slice — which, however, may coincide with the capture slice
again (for instance with one active slice, or when a shuffle draw lands
on it), in which case the read is serviced from the slice being
captured. -/
theorem playback_conflict_rule (p : Flux.Params) (s : Flux.State) (rng : ℕ → ℕ)
    (k : ℕ) :
    (s.hasContent = false → Flux.PlaybackSlice p s rng k = ⟨0, s, k, none⟩) ∧
    (s.hasContent = true → s.currentPlaybackSlice ≠ s.currentCaptureSlice →
      ∀ i off, (Flux.PlaybackSlice p s rng k).read = some (i, off) →
        i = s.currentPlaybackSlice ∧ i ≠ s.currentCaptureSlice) ∧
    (s.hasContent = true → s.currentPlaybackSlice = s.currentCaptureSlice →
      (s.sliceLengths (Flux.GetNextSlice s.currentPlaybackSlice p.active_slice_count
          p.knob_stutter p.toggle_mode rng k).1 = 0 →
        (Flux.PlaybackSlice p s rng k).output = 0 ∧
        (Flux.PlaybackSlice p s rng k).read = none) ∧
      (∀ i off, (Flux.PlaybackSlice p s rng k).read = some (i, off) →
        i = (Flux.GetNextSlice s.currentPlaybackSlice p.active_slice_count
          p.knob_stutter p.toggle_mode rng k).1)) := by
  refine ⟨?_, ?_, ?_⟩
  · intro h
    simp [Flux.PlaybackSlice, h]
  · intro h hne i off hr
    simp only [Flux.PlaybackSlice, h, if_true] at hr
    rw [if_neg hne] at hr
    have hi := playbackRead_read_slice p s rng k i off hr
    exact ⟨hi, hi ▸ hne⟩
  · intro h hc
    rw [playbackSlice_conflict_eq p s rng k h hc]
    constructor
    · intro hlen
      rw [playbackRead_empty _ _ rng _ (by simpa using hlen)]
      exact ⟨rfl, rfl⟩
    · intro i off hr
      simpa using playbackRead_read_slice _ _ rng _ i off hr

/-- C1 amended, witness: in the conflict case with every slice still
empty, the advanced-to slice is empty and PlaybackSlice emits silence
and services no read. -/
theorem playback_conflict_rule_witness :
    (Flux.PlaybackSlice Flux.exParamsOne Flux.silentConflictState Flux.exRng 0).output = 0 ∧
    (Flux.PlaybackSlice Flux.exParamsOne Flux.silentConflictState Flux.exRng 0).read = none :=
  ((playback_conflict_rule Flux.exParamsOne Flux.silentConflictState Flux.exRng 0).2.2
    rfl rfl).1 rfl

/-- Helper: the truncation of a rational strictly below MAX_SLICE_LENGTH
is at most MAX_SLICE_LENGTH - 1. -/
theorem cTrunc_le_max_sub_one (q : ℚ) (h : q < (Flux.MAX_SLICE_LENGTH : ℚ)) :
    Flux.cTrunc q ≤ (Flux.MAX_SLICE_LENGTH : ℤ) - 1 := by
  unfold Flux.cTrunc
  split_ifs with hneg
  · have h0 : (0:ℤ) ≤ ⌊-q⌋ := Int.floor_nonneg.mpr (by linarith)
    simp only [Flux.MAX_SLICE_LENGTH] at *
    omega
  · have hq : ⌊q⌋ < ((Flux.MAX_SLICE_LENGTH : ℕ) : ℤ) :=
      Int.floor_lt.mpr (by exact_mod_cast h)
    simp only [Flux.MAX_SLICE_LENGTH] at *
    omega

/-- Helper: GetNextSlice always selects a slice index below the active
slice count (every branch reduces modulo the count). -/
theorem getNextSlice_lt (current count : ℕ) (k6 : ℚ) (mode : ℕ) (rng : ℕ → ℕ)
    (k : ℕ) (hc : 1 ≤ count) :
    (Flux.GetNextSlice current count k6 mode rng k).1 < count := by
  simp only [Flux.GetNextSlice]
  split_ifs <;> exact Nat.mod_lt _ (by omega)

/-- Helper: the one-pole tracking step keeps the smoothed value strictly
below MAX_SLICE_LENGTH whenever it starts strictly below and tracks a
target of at most MAX_SLICE_LENGTH. -/
theorem fonepole_lt_max (smooth target : ℚ)
    (h1 : smooth < (Flux.MAX_SLICE_LENGTH : ℚ))
    (h2 : target ≤ (Flux.MAX_SLICE_LENGTH : ℚ)) :
    Flux.fonepole smooth target (2/10000) < (Flux.MAX_SLICE_LENGTH : ℚ) := by
  unfold Flux.fonepole
  nlinarith

/-- Helper: the clamped read offset always lies inside the buffer row,
for every slice length of at most MAX_SLICE_LENGTH — even from
adversarial cursor positions the defensive clamp defaults any
out-of-range offset to zero. -/
theorem readPositionOf_bound (reverse : Bool) (pos : ℕ) (len : ℤ)
    (hmax : len ≤ (Flux.MAX_SLICE_LENGTH : ℤ)) :
    (Flux.readPositionOf reverse pos len).toNat < Flux.MAX_SLICE_LENGTH := by
  simp only [Flux.readPositionOf, Flux.MAX_SLICE_LENGTH] at *
  split_ifs at * <;> omega

/-- Helper: the playback read body never modifies the slice store, the
capture cursor, the zero-crossing state, the content flag, the smoothed
parameter, the bit-crush state or the crossfader position — it only moves
the playback cursor, stutter counters and crossfade cache. -/
theorem playbackRead_frame (p : Flux.Params) (s : Flux.State) (rng : ℕ → ℕ) (k : ℕ) :
    (Flux.PlaybackRead p s rng k).s.sliceBuffers = s.sliceBuffers ∧
    (Flux.PlaybackRead p s rng k).s.sliceLengths = s.sliceLengths ∧
    (Flux.PlaybackRead p s rng k).s.currentCaptureSlice = s.currentCaptureSlice ∧
    (Flux.PlaybackRead p s rng k).s.capturePosition = s.capturePosition ∧
    (Flux.PlaybackRead p s rng k).s.waitingForZeroCrossing = s.waitingForZeroCrossing ∧
    (Flux.PlaybackRead p s rng k).s.zeroSearchCount = s.zeroSearchCount ∧
    (Flux.PlaybackRead p s rng k).s.hasLeftZero = s.hasLeftZero ∧
    (Flux.PlaybackRead p s rng k).s.previousCaptureSample = s.previousCaptureSample ∧
    (Flux.PlaybackRead p s rng k).s.hasContent = s.hasContent ∧
    (Flux.PlaybackRead p s rng k).s.slice_length_samples_smooth =
      s.slice_length_samples_smooth ∧
    (Flux.PlaybackRead p s rng k).s.bitcrush_hold_sample = s.bitcrush_hold_sample ∧
    (Flux.PlaybackRead p s rng k).s.bitcrush_sample_counter = s.bitcrush_sample_counter ∧
    (Flux.PlaybackRead p s rng k).s.lofi_filter_freq = s.lofi_filter_freq ∧
    (Flux.PlaybackRead p s rng k).s.lofi_filter_out = s.lofi_filter_out ∧
    (Flux.PlaybackRead p s rng k).s.mixPos = s.mixPos := by
  simp only [Flux.PlaybackRead]
  split_ifs <;> simp

/-- Helper: the playback read body keeps the playback index below the
active slice count limit: any adopted next slice comes out of
GetNextSlice, which reduces modulo the count. -/
theorem playbackRead_slice_lt (p : Flux.Params) (s : Flux.State) (rng : ℕ → ℕ)
    (k : ℕ) (hp1 : 1 ≤ p.active_slice_count) (hp2 : p.active_slice_count ≤ Flux.MAX_SLICES)
    (h2 : s.currentPlaybackSlice < Flux.MAX_SLICES) :
    (Flux.PlaybackRead p s rng k).s.currentPlaybackSlice < Flux.MAX_SLICES := by
  have hg1 := getNextSlice_lt s.currentPlaybackSlice p.active_slice_count p.knob_stutter
    p.toggle_mode rng k hp1
  simp only [Flux.PlaybackRead]
  split_ifs <;> simp_all <;>
    first
      | omega
      | (exact lt_of_lt_of_le (getNextSlice_lt _ _ _ _ _ _ hp1) hp2)

/-- Helper: every read offset serviced by the playback read body lies
inside the buffer row, provided all recorded slice lengths respect
MAX_SLICE_LENGTH. -/
theorem playbackRead_read_bound (p : Flux.Params) (s : Flux.State) (rng : ℕ → ℕ)
    (k : ℕ) :
    ∀ i off, (Flux.PlaybackRead p s rng k).read = some (i, off) →
      (∀ j, s.sliceLengths j ≤ (Flux.MAX_SLICE_LENGTH : ℤ)) →
      off < Flux.MAX_SLICE_LENGTH := by
  intro i off h hlen
  have hb := readPositionOf_bound s.playbackReverse s.playbackPosition
    (s.sliceLengths s.currentPlaybackSlice) (hlen _)
  simp only [Flux.PlaybackRead] at h
  split_ifs at h <;> simp_all <;>
    (obtain ⟨hcur, hoff⟩ := h; rw [← hoff, hcur]; exact hb)

/-- Helper: PlaybackSlice never modifies the slice store, the capture
cursor, the zero-crossing state, the content flag, the smoothed
parameter, the bit-crush state or the crossfader position. -/
theorem playbackSlice_frame (p : Flux.Params) (s : Flux.State) (rng : ℕ → ℕ) (k : ℕ) :
    (Flux.PlaybackSlice p s rng k).s.sliceBuffers = s.sliceBuffers ∧
    (Flux.PlaybackSlice p s rng k).s.sliceLengths = s.sliceLengths ∧
    (Flux.PlaybackSlice p s rng k).s.currentCaptureSlice = s.currentCaptureSlice ∧
    (Flux.PlaybackSlice p s rng k).s.capturePosition = s.capturePosition ∧
    (Flux.PlaybackSlice p s rng k).s.waitingForZeroCrossing = s.waitingForZeroCrossing ∧
    (Flux.PlaybackSlice p s rng k).s.zeroSearchCount = s.zeroSearchCount ∧
    (Flux.PlaybackSlice p s rng k).s.hasLeftZero = s.hasLeftZero ∧
    (Flux.PlaybackSlice p s rng k).s.previousCaptureSample = s.previousCaptureSample ∧
    (Flux.PlaybackSlice p s rng k).s.hasContent = s.hasContent ∧
    (Flux.PlaybackSlice p s rng k).s.slice_length_samples_smooth =
      s.slice_length_samples_smooth ∧
    (Flux.PlaybackSlice p s rng k).s.bitcrush_hold_sample = s.bitcrush_hold_sample ∧
    (Flux.PlaybackSlice p s rng k).s.bitcrush_sample_counter = s.bitcrush_sample_counter ∧
    (Flux.PlaybackSlice p s rng k).s.lofi_filter_freq = s.lofi_filter_freq ∧
    (Flux.PlaybackSlice p s rng k).s.lofi_filter_out = s.lofi_filter_out ∧
    (Flux.PlaybackSlice p s rng k).s.mixPos = s.mixPos := by
  simp only [Flux.PlaybackSlice]
  split_ifs with h1 h2
  · exact playbackRead_frame p _ rng _
  · exact playbackRead_frame p s rng k
  · simp

/-- Helper: PlaybackSlice preserves the engine invariant (it only moves
the playback cursor, and only to indices below the active count). -/
theorem playbackSlice_inv (p : Flux.Params) (s : Flux.State) (rng : ℕ → ℕ) (k : ℕ)
    (hp : Flux.ParamsOk p) (hs : Flux.Inv s) :
    Flux.Inv (Flux.PlaybackSlice p s rng k).s := by
  obtain ⟨hp1, hp2, hp3⟩ := hp
  obtain ⟨h1, h2, h3, h4, h5, h6⟩ := hs
  obtain ⟨f1, f2, f3, f4, f5, f6, f7, f8, f9, f10, f11, f12, f13, f14, f15⟩ :=
    playbackSlice_frame p s rng k
  have hlt : (Flux.PlaybackSlice p s rng k).s.currentPlaybackSlice < Flux.MAX_SLICES := by
    simp only [Flux.PlaybackSlice]
    split_ifs with hc1 hc2
    · exact playbackRead_slice_lt p _ rng _ hp1 hp2
        (by simpa using lt_of_lt_of_le (getNextSlice_lt _ _ _ _ rng k hp1) hp2)
    · exact playbackRead_slice_lt p s rng k hp1 hp2 h2
    · exact h2
  refine ⟨?_, hlt, ?_, ?_, ?_, ?_⟩
  · rw [f3]
    exact h1
  · rw [f4]
    exact h3
  · rw [f5, f4]
    exact h4
  · rw [f2]
    exact h5
  · rw [f10]
    exact h6

/-- Helper: one capture step preserves the engine invariant: the write
offset stays strictly inside the buffer row, every recorded length stays
within MAX_SLICE_LENGTH, and the capture index stays inside the slice
array — for every input, every parameter setting within the clamps, and
every behaviour of the pseudo-random source. -/
theorem captureSlice_inv (p : Flux.Params) (input : ℚ) (s : Flux.State) (rng : ℕ → ℕ)
    (k : ℕ) (hp : Flux.ParamsOk p) (hs : Flux.Inv s) :
    Flux.Inv (Flux.CaptureSlice p input s rng k).1 := by
  obtain ⟨hp1, hp2, hp3⟩ := hp
  obtain ⟨h1, h2, h3, h4, h5, h6⟩ := hs
  have htr := cTrunc_le_max_sub_one _ h6
  simp only [Flux.MAX_SLICES, Flux.MAX_SLICE_LENGTH] at h1 h2 h3 h4 h5 h6 htr hp1 hp2 hp3
  simp only [Flux.CaptureSlice]
  by_cases hw : s.waitingForZeroCrossing = true
  · simp only [hw, if_true]
    have h4' : s.capturePosition < 24000 := h3
    split_ifs with hfin <;>
        (try simp only [Bool.or_eq_true, Bool.and_eq_true, decide_eq_true_eq,
          not_or] at hfin) <;>
        unfold Flux.Inv <;>
        dsimp only <;>
        (try simp only [Flux.MAX_SLICES, Flux.MAX_SLICE_LENGTH, Flux.MAX_ZERO_SEARCH] at *) <;>
        (repeat' apply And.intro) <;>
        first
          | omega
          | exact h6
          | exact lt_of_lt_of_le (Nat.mod_lt _ (by omega)) hp2
          | (intro hx; first | omega | simp at hx)
          | (intro i
             have h5i := h5 i
             try simp only [Function.update_apply]
             rcases eq_or_ne i s.currentCaptureSlice with hi | hi
             · try rw [if_pos hi]
               omega
             · try rw [if_neg hi]
               omega)
  · have hw' : s.waitingForZeroCrossing = false := by
      revert hw
      cases s.waitingForZeroCrossing <;> simp
    simp only [hw', Bool.false_eq_true, if_false]
    have h4' := h4 hw'
    split_ifs with htarget <;>
        (try simp only [decide_eq_true_eq] at htarget) <;>
        unfold Flux.Inv <;>
        dsimp only <;>
        (try simp only [Flux.MAX_SLICES, Flux.MAX_SLICE_LENGTH] at *) <;>
        (repeat' apply And.intro) <;>
        first
          | omega
          | exact h6
          | (intro hx; first | omega | simp at hx)
          | (intro i
             have h5i := h5 i
             omega)

/-- Helper: the invariant ignores the crossfader position. -/
theorem inv_mixPos (s : Flux.State) (v : ℚ) (hs : Flux.Inv s) :
    Flux.Inv { s with mixPos := v } := hs

/-- Helper: the bit-crush stage touches only the hold sample, the hold
counter and the filter state, so it preserves the engine invariant. -/
theorem customBitCrush_inv (input amount : ℚ) (s : Flux.State) (hs : Flux.Inv s) :
    Flux.Inv (Flux.CustomBitCrush input amount s).2 := by
  obtain ⟨h1, h2, h3, h4, h5, h6⟩ := hs
  simp only [Flux.CustomBitCrush]
  split_ifs <;> exact ⟨h1, h2, h3, h4, h5, h6⟩

/-- Helper: one full per-sample callback iteration preserves the engine
invariant, including the strict bound on the smoothed slice length. -/
theorem audioCallbackSample_inv (p : Flux.Params) (input : ℚ) (s : Flux.State)
    (rng : ℕ → ℕ) (k : ℕ) (hp : Flux.ParamsOk p) (hs : Flux.Inv s) :
    Flux.Inv (Flux.AudioCallbackSample p input s rng k).2.1 := by
  have hsm : Flux.Inv { s with slice_length_samples_smooth := Flux.fonepole s.slice_length_samples_smooth (p.slice_length_samples : ℚ) (2/10000) } := by
    obtain ⟨h1, h2, h3, h4, h5, h6⟩ := hs
    exact ⟨h1, h2, h3, h4, h5,
      fonepole_lt_max _ _ h6 (by exact_mod_cast Nat.cast_le.mpr hp.2.2)⟩
  simp only [Flux.AudioCallbackSample]
  split_ifs with hb
  · exact inv_mixPos _ _ (captureSlice_inv _ _ _ _ _ hp (playbackSlice_inv _ _ _ _ hp
      (customBitCrush_inv _ _ _ hsm)))
  · exact hsm

/-- Helper: the engine invariant holds after every run of per-sample
callback iterations from an invariant state. -/
theorem engineRun_inv (p : Flux.Params) (inputs : List ℚ) (s : Flux.State)
    (rng : ℕ → ℕ) (k : ℕ) (hp : Flux.ParamsOk p) (hs : Flux.Inv s) :
    Flux.Inv (Flux.engineRun p inputs s rng k).1 := by
  induction inputs generalizing s k with
  | nil => exact hs
  | cons x rest ih => exact ih _ _ (audioCallbackSample_inv p x s rng k hp hs)

/-- C2: along every execution of the engine — any list of input samples,
any behaviour of the pseudo-random source, any parameter setting within
the control clamps including the slice-length control pinned at its
maximum — every recorded slice length satisfies
0 <= length <= MAX_SLICE_LENGTH at every per-sample step, starting from
any state satisfying the reachability invariant (the initial state in
particular). -/
theorem slice_lengths_bounded (p : Flux.Params) (inputs : List ℚ) (rng : ℕ → ℕ)
    (k : ℕ) (s₀ : Flux.State) (hp : Flux.ParamsOk p) (hs : Flux.Inv s₀) :
    ∀ n i, 0 ≤ (Flux.engineRun p (inputs.take n) s₀ rng k).1.sliceLengths i ∧
      (Flux.engineRun p (inputs.take n) s₀ rng k).1.sliceLengths i ≤
        (Flux.MAX_SLICE_LENGTH : ℤ) := by
  intro n i
  exact (engineRun_inv p (inputs.take n) s₀ rng k hp hs).2.2.2.2.1 i

/-- C2, witness: a concrete two-sample run from the initial state with the
slice-length control pinned at maximum. -/
theorem slice_lengths_bounded_witness :
    0 ≤ (Flux.engineRun Flux.exParams ([1, 1].take 2) (Flux.initState 20000)
        Flux.exRng 0).1.sliceLengths 0 ∧
    (Flux.engineRun Flux.exParams ([1, 1].take 2) (Flux.initState 20000)
        Flux.exRng 0).1.sliceLengths 0 ≤ (Flux.MAX_SLICE_LENGTH : ℤ) :=
  slice_lengths_bounded Flux.exParams [1, 1] Flux.exRng 0 (Flux.initState 20000)
    (by norm_num [Flux.ParamsOk, Flux.exParams, Flux.MAX_SLICES, Flux.MAX_SLICE_LENGTH])
    (by norm_num [Flux.Inv, Flux.initState, Flux.MAX_SLICES, Flux.MAX_SLICE_LENGTH])
    2 0

/-- Helper: the capture step writes exactly one buffer cell — the one at
the capture cursor. -/
theorem captureSlice_buffers (p : Flux.Params) (input : ℚ) (s : Flux.State)
    (rng : ℕ → ℕ) (k : ℕ) :
    (Flux.CaptureSlice p input s rng k).1.sliceBuffers =
      Flux.writeBuf s.sliceBuffers s.currentCaptureSlice s.capturePosition input := by
  simp only [Flux.CaptureSlice]
  split_ifs <;> rfl

/-- C3: under the reachability invariant (which holds along every
execution, by the preservation lemmas above) every slice-store access
uses an in-range slice index and offset: the capture write never touches
any cell outside the 16 x 24000 array — equivalently, out-of-range cells
keep their previous value — and every read serviced by the playback path
has its slice index below MAX_SLICES and its offset below
MAX_SLICE_LENGTH, the offset having been defaulted to zero by the clamp
whenever the raw read position was out of range. The playback path
performs no buffer write at all. -/
theorem buffer_access_in_range (p : Flux.Params) (s : Flux.State) (rng : ℕ → ℕ)
    (k : ℕ) (hp : Flux.ParamsOk p) (hs : Flux.Inv s) :
    (∀ input i j, Flux.MAX_SLICES ≤ i ∨ Flux.MAX_SLICE_LENGTH ≤ j →
      (Flux.CaptureSlice p input s rng k).1.sliceBuffers i j = s.sliceBuffers i j) ∧
    (s.currentCaptureSlice < Flux.MAX_SLICES ∧
      s.capturePosition < Flux.MAX_SLICE_LENGTH) ∧
    (∀ i off, (Flux.PlaybackSlice p s rng k).read = some (i, off) →
      i < Flux.MAX_SLICES ∧ off < Flux.MAX_SLICE_LENGTH) ∧
    (Flux.PlaybackSlice p s rng k).s.sliceBuffers = s.sliceBuffers := by
  obtain ⟨hp1, hp2, hp3⟩ := hp
  obtain ⟨h1, h2, h3, h4, h5, h6⟩ := hs
  have hlen : ∀ i, s.sliceLengths i ≤ (Flux.MAX_SLICE_LENGTH : ℤ) := fun i => (h5 i).2
  refine ⟨?_, ⟨h1, h3⟩, ?_, (playbackSlice_frame p s rng k).1⟩
  · intro input i j hij
    rw [captureSlice_buffers p input s rng k]
    unfold Flux.writeBuf
    rw [if_neg]
    rintro ⟨rfl, rfl⟩
    simp only [Flux.MAX_SLICES, Flux.MAX_SLICE_LENGTH] at *
    omega
  · intro i off h
    simp only [Flux.PlaybackSlice] at h
    split_ifs at h <;>
      first
        | simp at h
        | (have hi := playbackRead_read_slice p _ rng _ i off h
           have hoff := playbackRead_read_bound p _ rng _ i off h hlen
           refine ⟨?_, hoff⟩
           rw [hi]
           first
             | exact h2
             | exact lt_of_lt_of_le (getNextSlice_lt _ _ _ _ rng k hp1) hp2)

/-- C3, witness: a concrete in-range access check on the conflict state
with four active slices. -/
theorem buffer_access_in_range_witness :
    (Flux.PlaybackSlice Flux.exParams Flux.conflictState Flux.exRng 0).s.sliceBuffers =
      Flux.conflictState.sliceBuffers :=
  (buffer_access_in_range Flux.exParams Flux.conflictState Flux.exRng 0
    (by norm_num [Flux.ParamsOk, Flux.exParams, Flux.MAX_SLICES, Flux.MAX_SLICE_LENGTH])
    (by
      refine ⟨?_, ?_, ?_, ?_, ?_, ?_⟩ <;>
        norm_num [Flux.Inv, Flux.conflictState, Flux.initState, Flux.MAX_SLICES,
          Flux.MAX_SLICE_LENGTH] <;>
      intro i <;> split_ifs <;> norm_num)).2.2.2

/-- Helper: the Ambien Flux playback read body never modifies the slice
store, the capture cursor or the zero-crossing state. -/
theorem ambien_playbackRead_frame (p : Flux.Params) (s : Flux.State) (rng : ℕ → ℕ)
    (k : ℕ) :
    (Ambien.PlaybackRead p s rng k).s.sliceBuffers = s.sliceBuffers ∧
    (Ambien.PlaybackRead p s rng k).s.sliceLengths = s.sliceLengths ∧
    (Ambien.PlaybackRead p s rng k).s.currentCaptureSlice = s.currentCaptureSlice ∧
    (Ambien.PlaybackRead p s rng k).s.capturePosition = s.capturePosition ∧
    (Ambien.PlaybackRead p s rng k).s.waitingForZeroCrossing = s.waitingForZeroCrossing ∧
    (Ambien.PlaybackRead p s rng k).s.zeroSearchCount = s.zeroSearchCount ∧
    (Ambien.PlaybackRead p s rng k).s.hasLeftZero = s.hasLeftZero ∧
    (Ambien.PlaybackRead p s rng k).s.previousCaptureSample = s.previousCaptureSample ∧
    (Ambien.PlaybackRead p s rng k).s.hasContent = s.hasContent := by
  simp only [Ambien.PlaybackRead]
  split_ifs <;> simp

/-- Helper: the Ambien Flux PlaybackSlice never modifies the slice store,
the capture cursor or the zero-crossing state. -/
theorem ambien_playbackSlice_frame (p : Flux.Params) (s : Flux.State) (rng : ℕ → ℕ)
    (k : ℕ) :
    (Ambien.PlaybackSlice p s rng k).s.sliceBuffers = s.sliceBuffers ∧
    (Ambien.PlaybackSlice p s rng k).s.sliceLengths = s.sliceLengths ∧
    (Ambien.PlaybackSlice p s rng k).s.currentCaptureSlice = s.currentCaptureSlice ∧
    (Ambien.PlaybackSlice p s rng k).s.capturePosition = s.capturePosition ∧
    (Ambien.PlaybackSlice p s rng k).s.waitingForZeroCrossing = s.waitingForZeroCrossing ∧
    (Ambien.PlaybackSlice p s rng k).s.zeroSearchCount = s.zeroSearchCount ∧
    (Ambien.PlaybackSlice p s rng k).s.hasLeftZero = s.hasLeftZero ∧
    (Ambien.PlaybackSlice p s rng k).s.previousCaptureSample = s.previousCaptureSample ∧
    (Ambien.PlaybackSlice p s rng k).s.hasContent = s.hasContent := by
  simp only [Ambien.PlaybackSlice]
  split_ifs with h1 h2
  · exact ambien_playbackRead_frame p _ rng _
  · exact ambien_playbackRead_frame p s rng k
  · simp

/-- Helper: the Ambien Flux bit-crush stage touches only the hold sample,
the hold counter and the filter state. -/
theorem ambien_bitCrush_frame (input amount : ℚ) (s : Flux.State) :
    (Ambien.CustomBitCrush input amount s).2.sliceBuffers = s.sliceBuffers ∧
    (Ambien.CustomBitCrush input amount s).2.sliceLengths = s.sliceLengths ∧
    (Ambien.CustomBitCrush input amount s).2.currentCaptureSlice = s.currentCaptureSlice ∧
    (Ambien.CustomBitCrush input amount s).2.capturePosition = s.capturePosition ∧
    (Ambien.CustomBitCrush input amount s).2.waitingForZeroCrossing =
      s.waitingForZeroCrossing ∧
    (Ambien.CustomBitCrush input amount s).2.zeroSearchCount = s.zeroSearchCount ∧
    (Ambien.CustomBitCrush input amount s).2.hasLeftZero = s.hasLeftZero ∧
    (Ambien.CustomBitCrush input amount s).2.previousCaptureSample =
      s.previousCaptureSample ∧
    (Ambien.CustomBitCrush input amount s).2.hasContent = s.hasContent := by
  simp only [Ambien.CustomBitCrush]
  split_ifs <;> simp

/-- Helper: one frozen slice-engine step is exactly the smoothing, the
bit-crush and the playback step — the capture call returns immediately. -/
theorem ambien_tick_frozen (p : Flux.Params) (input : ℚ) (s : Flux.State)
    (rng : ℕ → ℕ) (k : ℕ) :
    Ambien.engineTick p true input s rng k =
      ((Ambien.PlaybackSlice p (Ambien.CustomBitCrush input p.lofi_bitcrush
          { s with slice_length_samples_smooth := Flux.fonepole s.slice_length_samples_smooth (p.slice_length_samples : ℚ) (2/10000) }).2 rng k).output,
       (Ambien.PlaybackSlice p (Ambien.CustomBitCrush input p.lofi_bitcrush
          { s with slice_length_samples_smooth := Flux.fonepole s.slice_length_samples_smooth (p.slice_length_samples : ℚ) (2/10000) }).2 rng k).s,
       (Ambien.PlaybackSlice p (Ambien.CustomBitCrush input p.lofi_bitcrush
          { s with slice_length_samples_smooth := Flux.fonepole s.slice_length_samples_smooth (p.slice_length_samples : ℚ) (2/10000) }).2 rng k).k) := by
  simp [Ambien.engineTick, Ambien.CaptureSlice]

/-- Helper: a frozen slice-engine step preserves the slice store and the
whole capture-cursor state. -/
theorem ambien_tick_frozen_frame (p : Flux.Params) (input : ℚ) (s : Flux.State)
    (rng : ℕ → ℕ) (k : ℕ) :
    (Ambien.engineTick p true input s rng k).2.1.sliceBuffers = s.sliceBuffers ∧
    (Ambien.engineTick p true input s rng k).2.1.sliceLengths = s.sliceLengths ∧
    (Ambien.engineTick p true input s rng k).2.1.currentCaptureSlice =
      s.currentCaptureSlice ∧
    (Ambien.engineTick p true input s rng k).2.1.capturePosition = s.capturePosition ∧
    (Ambien.engineTick p true input s rng k).2.1.waitingForZeroCrossing =
      s.waitingForZeroCrossing ∧
    (Ambien.engineTick p true input s rng k).2.1.zeroSearchCount = s.zeroSearchCount ∧
    (Ambien.engineTick p true input s rng k).2.1.hasLeftZero = s.hasLeftZero ∧
    (Ambien.engineTick p true input s rng k).2.1.previousCaptureSample =
      s.previousCaptureSample := by
  rw [ambien_tick_frozen]
  obtain ⟨b1, b2, b3, b4, b5, b6, b7, b8, b9⟩ := ambien_bitCrush_frame input
    p.lofi_bitcrush { s with slice_length_samples_smooth := Flux.fonepole s.slice_length_samples_smooth (p.slice_length_samples : ℚ) (2/10000) }
  obtain ⟨f1, f2, f3, f4, f5, f6, f7, f8, f9⟩ := ambien_playbackSlice_frame p
    (Ambien.CustomBitCrush input p.lofi_bitcrush
      { s with slice_length_samples_smooth := Flux.fonepole s.slice_length_samples_smooth (p.slice_length_samples : ℚ) (2/10000) }).2 rng k
  refine ⟨?_, ?_, ?_, ?_, ?_, ?_, ?_, ?_⟩ <;> simp_all

/-- C4: in the released Ambien Flux variant (which implements the freeze
latch reserved in flux_main.cpp), freezing fully suspends the Capture
Engine while playback continues: (1) with the latch active, CaptureSlice
returns before touching anything — the state and the rand cursor are
returned verbatim, so no buffer write occurs; (2) the playback step never
modifies slice contents, lengths or the capture cursor, and with the
capture call inert a frozen engine step is exactly the playback step on
the bit-crushed input, i.e. the Playback Sequencer, Stutter Policy and
Lo-Fi chain keep operating normally on the frozen content; (3)
consequently, over any run of frozen per-sample steps — freeze toggled at
any instant mid-capture — every slice buffer cell, every recorded length
and the entire capture cursor remain identical to their values at the
toggle instant. -/
theorem freeze_suspends_capture (p : Flux.Params) (rng : ℕ → ℕ) :
    (∀ input s k, Ambien.CaptureSlice p true input s rng k = (s, k)) ∧
    (∀ s k, (Ambien.PlaybackSlice p s rng k).s.sliceBuffers = s.sliceBuffers ∧
      (Ambien.PlaybackSlice p s rng k).s.sliceLengths = s.sliceLengths ∧
      (Ambien.PlaybackSlice p s rng k).s.currentCaptureSlice = s.currentCaptureSlice ∧
      (Ambien.PlaybackSlice p s rng k).s.capturePosition = s.capturePosition) ∧
    (∀ input s k,
      (Ambien.engineTick p true input s rng k).1 =
        (Ambien.PlaybackSlice p (Ambien.CustomBitCrush input p.lofi_bitcrush
          { s with slice_length_samples_smooth := Flux.fonepole s.slice_length_samples_smooth (p.slice_length_samples : ℚ) (2/10000) }).2 rng k).output) ∧
    (∀ inputs s k,
      (Ambien.engineRun p true inputs s rng k).1.sliceBuffers = s.sliceBuffers ∧
      (Ambien.engineRun p true inputs s rng k).1.sliceLengths = s.sliceLengths ∧
      (Ambien.engineRun p true inputs s rng k).1.currentCaptureSlice =
        s.currentCaptureSlice ∧
      (Ambien.engineRun p true inputs s rng k).1.capturePosition = s.capturePosition) := by
  refine ⟨fun input s k => by simp [Ambien.CaptureSlice], ?_, ?_, ?_⟩
  · intro s k
    obtain ⟨f1, f2, f3, f4, f5, f6, f7, f8, f9⟩ := ambien_playbackSlice_frame p s rng k
    exact ⟨f1, f2, f3, f4⟩
  · intro input s k
    rw [ambien_tick_frozen]
  · intro inputs
    induction inputs with
    | nil => exact fun s k => ⟨rfl, rfl, rfl, rfl⟩
    | cons x rest ih =>
      intro s k
      obtain ⟨t1, t2, t3, t4, t5, t6, t7, t8⟩ := ambien_tick_frozen_frame p x s rng k
      obtain ⟨r1, r2, r3, r4⟩ := ih (Ambien.engineTick p true x s rng k).2.1
        (Ambien.engineTick p true x s rng k).2.2
      exact ⟨r1.trans t1, r2.trans t2, r3.trans t3, r4.trans t4⟩
